import Mathlib

/-!
# Verification of the `impatient_cloud_enum` probing core

A shallow embedding of the concurrent probing engine of
`enum_tools` (domain validation, rate governor, DNS lookup policy,
batch result consumption, abort-flag semantics, resolver selection),
with theorems settling the specification's claims about it.

Strings are modelled as Lean `String`; Go's `len` on strings counts
UTF-8 bytes, so we define that measure explicitly. Machine integers
(`int64`) are modelled as `Int` (the counters involved stay far below
the overflow range in any run the claims speak about).
-/

namespace CloudEnum

/-- Number of bytes of the UTF-8 encoding of a character
(Go strings are UTF-8, and `len` counts bytes). -/
def charUtf8Size (c : Char) : Nat :=
  if c.val < 128 then 1
  else if c.val < 2048 then 2
  else if c.val < 65536 then 3
  else 4

/-- Go's `len` on (the characters of) a string: total UTF-8 byte count. -/
def bytesOf (cs : List Char) : Nat :=
  cs.foldl (fun n c => n + charUtf8Size c) 0

/-- Go's `len(s)` on a string. -/
def byteLength (s : String) : Nat := bytesOf s.data

/-- Embeds `strings.Split(s, ".")` for a string given as its characters:
splits on every dot, keeping empty fields (`Split` on a non-empty
separator never drops fields, and splitting the empty string yields
one empty field). -/
def splitDot : List Char → List (List Char)
  | [] => [[]]
  | c :: rest =>
    match splitDot rest with
    | [] => [[]]
    | l :: ls => if c = '.' then [] :: l :: ls else (c :: l) :: ls

/-- Embeds `IsValidDomain` (part_001 lines 169-179): reject when the
total byte length exceeds 253, then reject when some dot-separated
label has byte length outside [1, 63], else accept. -/
def IsValidDomain (domain : String) : Bool :=
  if byteLength domain > 253 then false
  else (splitDot domain.data).all fun label =>
    decide (1 ≤ bytesOf label) && decide (bytesOf label ≤ 63)

/-- The validity predicate exactly as the specification words it:
total length at most 253 and every dot-separated label of length
between 1 and 63 inclusive. -/
def ValidDomainSpec (name : String) : Prop :=
  byteLength name ≤ 253 ∧
  ∀ l ∈ splitDot name.data, 1 ≤ bytesOf l ∧ bytesOf l ≤ 63

/-- C5: for every string `name`, `IsValidDomain` returns `true` iff the
total length of `name` is at most 253 bytes and every dot-separated
label has length between 1 and 63 inclusive. (The embedding is a pure
function, matching the "no side effects" part of the claim.) -/
theorem isValidDomain_spec (name : String) :
    IsValidDomain name = true ↔ ValidDomainSpec name := by
  unfold IsValidDomain ValidDomainSpec
  by_cases h : byteLength name > 253
  · simp only [if_pos h]
    constructor
    · intro hf
      exact absurd hf (by simp)
    · intro ⟨h1, _⟩
      omega
  · simp only [if_neg h, List.all_eq_true, Bool.and_eq_true, decide_eq_true_eq]
    constructor
    · intro hall
      refine ⟨by omega, fun l hl => hall l hl⟩
    · intro ⟨_, hall⟩ l hl
      exact hall l hl

example : IsValidDomain "a.b" = true := by decide
example : IsValidDomain "a..b" = false := by decide
example : IsValidDomain "" = false := by decide

/-!
## DNS lookup policy (`dnsLookup`, part_001 lines 406-437)

One call to `resolver.LookupHost` either succeeds (`none` below) or
fails with an error. The Go code unwraps the error looking for a
`*net.DNSError` and branches on its `IsNotFound` / `IsTimeout` flags;
an error that is not (and does not unwrap to) a `net.DNSError` takes
the final `return ""` branch. The resolver's behaviour is modelled as
a function from the attempt index to that classification.
-/

/-- The flags of a `net.DNSError` that `dnsLookup` inspects. -/
structure DNSErr where
  isNotFound : Bool
  isTimeout : Bool
  deriving DecidableEq

/-- Classification of a failed `LookupHost` call. -/
inductive LookupErr where
  | dns (e : DNSErr)
  | nonDNS
  deriving DecidableEq

/-- The sentinel string `dnsLookup` returns on a fatal resolver error. -/
def breakoutSentinel : String := "-#BREAKOUT_DNS_ERROR#-"

/-- The `for tries := 0; tries < 2; tries++` loop of `dnsLookup`:
`t` is the current attempt index, `rem` the remaining iterations.
When the loop exits (remaining = 0) the function returns `""`. -/
def dnsLookupLoop (attempt : Nat → Option LookupErr) (name : String) :
    Nat → Nat → String
  | _, 0 => ""
  | t, rem + 1 =>
    match attempt t with
    | none => name
    | some (LookupErr.dns e) =>
      if e.isNotFound then ""
      else if e.isTimeout then dnsLookupLoop attempt name (t + 1) rem
      else breakoutSentinel
    | some LookupErr.nonDNS => ""

/-- Embeds `dnsLookup` (part_001 lines 406-437): up to two attempts. -/
def dnsLookup (attempt : Nat → Option LookupErr) (name : String) : String :=
  dnsLookupLoop attempt name 0 2

/-- Number of `LookupHost` calls `dnsLookup` makes (same loop shape). -/
def dnsTriesLoop (attempt : Nat → Option LookupErr) : Nat → Nat → Nat
  | _, 0 => 0
  | t, rem + 1 =>
    match attempt t with
    | none => 1
    | some (LookupErr.dns e) =>
      if e.isNotFound then 1
      else if e.isTimeout then 1 + dnsTriesLoop attempt (t + 1) rem
      else 1
    | some LookupErr.nonDNS => 1

/-- Number of lookup attempts a `dnsLookup` call performs. -/
def dnsTries (attempt : Nat → Option LookupErr) : Nat :=
  dnsTriesLoop attempt 0 2

theorem dnsTriesLoop_one (attempt : Nat → Option LookupErr) (t : Nat) :
    dnsTriesLoop attempt t 1 = 1 := by
  unfold dnsTriesLoop
  cases attempt t with
  | none => rfl
  | some err =>
    cases err with
    | nonDNS => rfl
    | dns e => cases e.isNotFound <;> cases e.isTimeout <;> simp [dnsTriesLoop]

/-- C1: per-name resolution policy of `dnsLookup`. A successful lookup
returns the name (resolved); a name-not-found error returns `""`
(not-found); a timeout is retried exactly once (two attempts are made)
and a second timeout returns `""` (not-found), while the retry's
success / not-found / other-error outcomes are handled by the same
policy; any other DNS resolver error returns the fatal sentinel; and
every call returns exactly one of the three outcome strings. -/
theorem dnsLookup_policy (attempt : Nat → Option LookupErr) (name : String) :
    (attempt 0 = none → dnsLookup attempt name = name) ∧
    (∀ e, attempt 0 = some (LookupErr.dns e) → e.isNotFound = true →
      dnsLookup attempt name = "") ∧
    (∀ e, attempt 0 = some (LookupErr.dns e) → e.isNotFound = false →
      e.isTimeout = false → dnsLookup attempt name = breakoutSentinel) ∧
    (∀ e, attempt 0 = some (LookupErr.dns e) → e.isNotFound = false →
      e.isTimeout = true →
      dnsTries attempt = 2 ∧
      (attempt 1 = none → dnsLookup attempt name = name) ∧
      (∀ e2, attempt 1 = some (LookupErr.dns e2) → e2.isNotFound = true →
        dnsLookup attempt name = "") ∧
      (∀ e2, attempt 1 = some (LookupErr.dns e2) → e2.isNotFound = false →
        e2.isTimeout = true → dnsLookup attempt name = "") ∧
      (∀ e2, attempt 1 = some (LookupErr.dns e2) → e2.isNotFound = false →
        e2.isTimeout = false → dnsLookup attempt name = breakoutSentinel)) ∧
    (dnsLookup attempt name = name ∨ dnsLookup attempt name = "" ∨
      dnsLookup attempt name = breakoutSentinel) ∧
    dnsTries attempt ≤ 2 := by
  unfold dnsLookup dnsTries
  refine ⟨?_, ?_, ?_, ?_, ?_, ?_⟩
  · intro h0
    simp [dnsLookupLoop, h0]
  · intro e h0 hnf
    simp [dnsLookupLoop, h0, hnf]
  · intro e h0 hnf hto
    simp [dnsLookupLoop, h0, hnf, hto]
  · intro e h0 hnf hto
    refine ⟨?_, ?_, ?_, ?_, ?_⟩
    · cases h1 : attempt 1 with
      | none => simp [dnsTriesLoop, h0, hnf, hto, h1]
      | some err2 =>
        cases err2 with
        | nonDNS => simp [dnsTriesLoop, h0, hnf, hto, h1]
        | dns e2 =>
          cases hnf2 : e2.isNotFound <;> cases hto2 : e2.isTimeout <;>
            simp [dnsTriesLoop, h0, hnf, hto, h1, hnf2, hto2]
    · intro h1
      simp [dnsLookupLoop, h0, hnf, hto, h1]
    · intro e2 h1 hnf2
      simp [dnsLookupLoop, h0, hnf, hto, h1, hnf2]
    · intro e2 h1 hnf2 hto2
      simp [dnsLookupLoop, h0, hnf, hto, h1, hnf2, hto2]
    · intro e2 h1 hnf2 hto2
      simp [dnsLookupLoop, h0, hnf, hto, h1, hnf2, hto2]
  · cases h0 : attempt 0 with
    | none => simp [dnsLookupLoop, h0]
    | some err =>
      cases err with
      | nonDNS => simp [dnsLookupLoop, h0]
      | dns e =>
        cases hnf : e.isNotFound with
        | true => simp [dnsLookupLoop, h0, hnf]
        | false =>
          cases hto : e.isTimeout with
          | false => simp [dnsLookupLoop, h0, hnf, hto]
          | true =>
            cases h1 : attempt 1 with
            | none => simp [dnsLookupLoop, h0, hnf, hto, h1]
            | some err2 =>
              cases err2 with
              | nonDNS => simp [dnsLookupLoop, h0, hnf, hto, h1]
              | dns e2 =>
                cases hnf2 : e2.isNotFound with
                | true => simp [dnsLookupLoop, h0, hnf, hto, h1, hnf2]
                | false =>
                  cases hto2 : e2.isTimeout <;>
                    simp [dnsLookupLoop, h0, hnf, hto, h1, hnf2, hto2]
  · cases h0 : attempt 0 with
    | none => simp [dnsTriesLoop, h0]
    | some err =>
      cases err with
      | nonDNS => simp [dnsTriesLoop, h0]
      | dns e =>
        cases hnf : e.isNotFound with
        | true => simp [dnsTriesLoop, h0, hnf]
        | false =>
          cases hto : e.isTimeout with
          | false => simp [dnsTriesLoop, h0, hnf, hto]
          | true =>
            cases h1 : attempt 1 with
            | none => simp [dnsTriesLoop, h0, hnf, hto, h1]
            | some err2 =>
              cases err2 with
              | nonDNS => simp [dnsTriesLoop, h0, hnf, hto, h1]
              | dns e2 =>
                cases hnf2 : e2.isNotFound <;>
                  cases hto2 : e2.isTimeout <;>
                    simp [dnsTriesLoop, h0, hnf, hto, h1, hnf2, hto2]

/-- A resolver whose first attempt times out and whose second attempt
finds the name not registered. -/
def attemptTimeoutThenNotFound : Nat → Option LookupErr
  | 0 => some (LookupErr.dns ⟨false, true⟩)
  | _ => some (LookupErr.dns ⟨true, false⟩)

/-- Witness for C1: concrete resolvers exercising the policy branches. -/
theorem dnsLookup_policy_witness :
    dnsLookup (fun _ => none) "x.y" = "x.y" ∧
    dnsLookup (fun _ => some (LookupErr.dns ⟨true, false⟩)) "x.y" = "" ∧
    dnsLookup (fun _ => some (LookupErr.dns ⟨false, false⟩)) "x.y" =
      breakoutSentinel ∧
    dnsLookup attemptTimeoutThenNotFound "x.y" = "" ∧
    dnsTries attemptTimeoutThenNotFound = 2 := by
  refine ⟨?_, ?_, ?_, ?_, ?_⟩
  · exact (dnsLookup_policy (fun _ => none) "x.y").1 rfl
  · exact (dnsLookup_policy (fun _ => some (LookupErr.dns ⟨true, false⟩))
      "x.y").2.1 ⟨true, false⟩ rfl rfl
  · exact (dnsLookup_policy (fun _ => some (LookupErr.dns ⟨false, false⟩))
      "x.y").2.2.1 ⟨false, false⟩ rfl rfl rfl
  · exact ((dnsLookup_policy attemptTimeoutThenNotFound
      "x.y").2.2.2.1 ⟨false, true⟩ rfl rfl rfl).2.2.1 ⟨true, false⟩ rfl rfl
  · exact ((dnsLookup_policy attemptTimeoutThenNotFound
      "x.y").2.2.2.1 ⟨false, true⟩ rfl rfl rfl).1

/-!
## The DNS batch consumer (`FastDNSLookup`, part_001 lines 538-554)

While draining the result queue, `FastDNSLookup` skips `""` results,
calls `os.Exit(1)` (after printing nameserver guidance) on the first
fatal sentinel, and otherwise passes the name to the callback and
appends it to the returned `validNames`. Process termination is
modelled by the `exited` constructor; its argument is the list of
names delivered (to the callback and the accumulator) before the exit.
-/

/-- Final state of the consuming loop: the process exited mid-drain, or
the loop finished with the accumulated list of resolved names. -/
inductive ConsumeState where
  | exited (delivered : List String)
  | finished (validNames : List String)
  deriving DecidableEq

/-- The `for name := range resultsCh` loop with accumulator `acc`
(the `validNames` built so far). -/
def consumeGo (acc : List String) : List String → ConsumeState
  | [] => ConsumeState.finished acc
  | r :: rest =>
    if r = "" then consumeGo acc rest
    else if r = breakoutSentinel then ConsumeState.exited acc
    else consumeGo (acc ++ [r]) rest

/-- The whole consuming loop over the drained result sequence. -/
def consumeResults (results : List String) : ConsumeState :=
  consumeGo [] results

theorem consumeGo_no_sentinel (results : List String) :
    ∀ acc, breakoutSentinel ∉ results →
    consumeGo acc results =
      ConsumeState.finished (acc ++ results.filter (fun s => s ≠ "")) := by
  induction results with
  | nil => intro acc _; simp [consumeGo]
  | cons r rest ih =>
    intro acc hmem
    have hr : r ≠ breakoutSentinel := fun h => hmem (h ▸ List.mem_cons_self r rest)
    have hrest : breakoutSentinel ∉ rest := fun h => hmem (List.mem_cons_of_mem r h)
    by_cases he : r = ""
    · simp [consumeGo, he, ih _ hrest]
    · simp [consumeGo, he, hr, ih _ hrest, List.filter_cons]

theorem consumeGo_sentinel (pre : List String) :
    ∀ acc post, breakoutSentinel ∉ pre →
    consumeGo acc (pre ++ breakoutSentinel :: post) =
      ConsumeState.exited (acc ++ pre.filter (fun s => s ≠ "")) := by
  induction pre with
  | nil =>
    intro acc post _
    simp [consumeGo, breakoutSentinel]
  | cons r rest ih =>
    intro acc post hmem
    have hr : r ≠ breakoutSentinel := fun h => hmem (h ▸ List.mem_cons_self r rest)
    have hrest : breakoutSentinel ∉ rest := fun h => hmem (List.mem_cons_of_mem r h)
    by_cases he : r = ""
    · simp [consumeGo, he, ih _ post hrest]
    · simp [consumeGo, he, hr, ih _ post hrest, List.filter_cons]

theorem consumeGo_finished_no_sentinel {results l : List String} :
    ∀ acc, consumeGo acc results = ConsumeState.finished l →
    breakoutSentinel ∉ results := by
  induction results with
  | nil => intro acc _; simp
  | cons r rest ih =>
    intro acc h
    by_cases he : r = ""
    · simp only [consumeGo, if_pos he] at h
      simp only [List.mem_cons]
      rintro (hr | hr)
      · exact absurd (hr ▸ he) (by simp [breakoutSentinel])
      · exact ih _ h hr
    · by_cases hb : r = breakoutSentinel
      · subst hb
        simp only [consumeGo, if_neg he, if_pos rfl] at h
        simp [breakoutSentinel] at h
      · simp only [consumeGo, if_neg he, if_neg hb] at h
        simp only [List.mem_cons]
        rintro (hr | hr)
        · exact hb hr.symm
        · exact ih _ h hr

/-- C2: if the drained result sequence contains a fatal sentinel, the
consuming loop of `FastDNSLookup` terminates the process at the first
one: the names passed to the callback and accumulated for return are
exactly the non-empty results strictly before that sentinel, and no
result after it is delivered or returned (the loop never reaches
them). The Go code prints guidance to use a different nameserver and
calls `os.Exit(1)`, modelled by the `exited` state. -/
theorem fatal_terminates_consumer (pre post : List String)
    (h : breakoutSentinel ∉ pre) :
    consumeResults (pre ++ breakoutSentinel :: post) =
      ConsumeState.exited (pre.filter (fun s => s ≠ "")) := by
  unfold consumeResults
  simpa using consumeGo_sentinel pre [] post h

/-- Witness for C2: a concrete batch where a resolved name precedes the
fatal sentinel and another follows it. -/
theorem fatal_terminates_consumer_witness :
    consumeResults ["a.x", "", breakoutSentinel, "b.x"] =
      ConsumeState.exited ["a.x"] := by
  have := fatal_terminates_consumer ["a.x", ""] ["b.x"] (by decide)
  simpa using this

/-!
## Idempotence of the DNS batch (C8)

`FastDNSLookup` filters the input through `IsValidDomain`, resolves
every filtered name (each worker calls `dnsLookup`), and the consumer
drains the results in whatever order the workers completed — i.e. in
some permutation of the per-name outcomes. With a deterministic
resolver the multiset of outcomes is fixed; only the arrival order
varies between runs.
-/

/-- The filtering step shared by both batch engines
(part_001 lines 236-240 and 473-478). -/
def filterValid (names : List String) : List String :=
  names.filter fun n => IsValidDomain n

/-- The multiset of per-name outcomes produced by the worker pool for a
deterministic resolver `f` (each name always mapping to the same
`dnsLookup` result string). -/
def dnsOutcomes (f : String → String) (names : List String) : List String :=
  (filterValid names).map f

/-- C8: running `FastDNSLookup` twice on the same name list with the
same deterministic resolver delivers, in each run, some permutation of
the same outcome multiset to the consumer; whenever both runs return
(no fatal exit), the returned resolved lists have the same membership,
order ignored. -/
theorem resolveBatch_idempotent (f : String → String) (names : List String)
    (run1 run2 : List String) (l1 l2 : List String)
    (h1 : run1.Perm (dnsOutcomes f names))
    (h2 : run2.Perm (dnsOutcomes f names))
    (hc1 : consumeResults run1 = ConsumeState.finished l1)
    (hc2 : consumeResults run2 = ConsumeState.finished l2) :
    ∀ x, x ∈ l1 ↔ x ∈ l2 := by
  have hs1 : breakoutSentinel ∉ run1 := consumeGo_finished_no_sentinel [] hc1
  have hs2 : breakoutSentinel ∉ run2 := consumeGo_finished_no_sentinel [] hc2
  have e1 := consumeGo_no_sentinel run1 [] hs1
  have e2 := consumeGo_no_sentinel run2 [] hs2
  rw [consumeResults, e1] at hc1
  rw [consumeResults, e2] at hc2
  injection hc1 with hl1
  injection hc2 with hl2
  have hperm := (h1.trans h2.symm).filter fun s => decide (s ≠ "")
  subst hl1
  subst hl2
  intro x
  simp only [List.nil_append]
  exact hperm.mem_iff

/-- Witness for C8: two arrival orders of the same deterministic batch
yield the same membership. -/
theorem resolveBatch_idempotent_witness :
    "b.x" ∈ (["a.x", "b.x"] : List String) ↔
      "b.x" ∈ (["b.x", "a.x"] : List String) := by
  have hperm1 : (["a.x", "b.x"] : List String).Perm
      (dnsOutcomes (fun n => n) ["a.x", "b.x"]) := by
    simp [dnsOutcomes, filterValid]
    decide
  have hperm2 : (["b.x", "a.x"] : List String).Perm
      (dnsOutcomes (fun n => n) ["a.x", "b.x"]) := by
    simp [dnsOutcomes, filterValid]
    decide
  exact resolveBatch_idempotent (fun n => n) ["a.x", "b.x"]
    ["a.x", "b.x"] ["b.x", "a.x"] ["a.x", "b.x"] ["b.x", "a.x"]
    hperm1 hperm2 (by decide) (by decide) "b.x"

/-!
## Rate governor (`rateLimitCheck`, part_001 lines 42-67)

`rateLimitCheck` returns immediately when no threshold is configured
(`rlThreshold <= 0`). Otherwise it atomically increments the global
counter and, when the post-increment count is an exact multiple of the
threshold, that worker alone sets the paused flag, sleeps, and clears
it — a pause event. For the sequential single-worker scenario the
claims describe, a call maps the current counter to the new counter
plus whether this call paused.
-/

/-- One `rateLimitCheck` call: new counter value and whether this call
triggered a pause event (post-increment count a multiple of the
threshold). -/
def rateLimitCheck (threshold count : Int) : Int × Bool :=
  if threshold ≤ 0 then (count, false)
  else (count + 1, (count + 1) % threshold == 0)

/-- Runs `n` sequential requests admitted by a single worker starting from
counter value `count`: the post-increment counts at which pause events
fired, in order. -/
def runPauses (threshold count : Int) : Nat → List Int
  | 0 => []
  | n + 1 =>
    let r := rateLimitCheck threshold count
    (if r.2 then [r.1] else []) ++ runPauses threshold r.1 n

theorem runPauses_length (T : ℕ) (hT : 0 < T) :
    ∀ (n c : ℕ),
    (runPauses (T : Int) (c : Int) n).length = (c + n) / T - c / T := by
  intro n
  induction n with
  | zero => intro c; simp [runPauses]
  | succ n ih =>
    intro c
    have hT' : ¬((T : Int) ≤ 0) := by
      simp only [not_le]
      exact_mod_cast hT
    have hcast : ((c : ℕ) : Int) + 1 = ((c + 1 : ℕ) : Int) := by push_cast; ring
    have hsucc : (c + 1) / T = c / T + if T ∣ c + 1 then 1 else 0 :=
      Nat.succ_div c T
    have hle : (c + 1) / T ≤ (c + 1 + n) / T :=
      Nat.div_le_div_right (by omega)
    have hren : c + (n + 1) = c + 1 + n := by omega
    by_cases hd : T ∣ c + 1
    · have hdZ : (T : Int) ∣ ((c : ℕ) : Int) + 1 := by
        rw [hcast]
        exact_mod_cast hd
      have hmod0 : (((c : ℕ) : Int) + 1) % (T : Int) = 0 :=
        Int.emod_eq_zero_of_dvd hdZ
      have hguard : ((((c : ℕ) : Int) + 1) % (T : Int) == 0) = true := by
        simp [hmod0]
      simp only [runPauses, rateLimitCheck, if_neg hT', hguard, if_pos,
        List.length_append, List.length_cons, List.length_nil]
      rw [hcast, ih (c + 1)]
      rw [if_pos hd] at hsucc
      rw [hren]
      generalize (c + 1 + n) / T = A at *
      generalize (c + 1) / T = B at *
      generalize c / T = C at *
      omega
    · have hdZ : ¬((T : Int) ∣ ((c : ℕ) : Int) + 1) := by
        rw [hcast]
        exact_mod_cast hd
      have hmodne : (((c : ℕ) : Int) + 1) % (T : Int) ≠ 0 := fun h =>
        hdZ (Int.dvd_of_emod_eq_zero h)
      have hguard : ((((c : ℕ) : Int) + 1) % (T : Int) == 0) = false := by
        simp [hmodne]
      simp only [runPauses, rateLimitCheck, if_neg hT', hguard,
        Bool.false_eq_true, if_false, List.nil_append]
      rw [hcast, ih (c + 1)]
      rw [if_neg hd] at hsucc
      rw [hren]
      generalize (c + 1 + n) / T = A at *
      generalize (c + 1) / T = B at *
      generalize c / T = C at *
      omega

/-- C4: the rate governor's policy. With no threshold configured
(threshold at most 0), a call is a no-op. With a positive threshold,
each admitted request increments the counter and pauses exactly when
the post-increment count is a multiple of the threshold; `n`
sequential requests by a single worker from counter 0 produce exactly
`n / T` pause events; and with threshold 5, 12 sequential requests
pause exactly twice, after requests 5 and 10. -/
theorem rate_governor_policy :
    (∀ T c : Int, T ≤ 0 → rateLimitCheck T c = (c, false)) ∧
    (∀ T c : Int, 0 < T →
      (rateLimitCheck T c).1 = c + 1 ∧
      ((rateLimitCheck T c).2 = true ↔ (c + 1) % T = 0)) ∧
    (∀ T n : ℕ, 0 < T → (runPauses (T : Int) 0 n).length = n / T) ∧
    runPauses 5 0 12 = [5, 10] := by
  refine ⟨?_, ?_, ?_, by decide⟩
  · intro T c h
    simp [rateLimitCheck, h]
  · intro T c h
    have h' : ¬(T ≤ 0) := not_le.mpr h
    constructor
    · simp [rateLimitCheck, h']
    · simp [rateLimitCheck, h']
  · intro T n hT
    have := runPauses_length T hT n 0
    simpa using this

/-- Witness for C4: the theorem applied at threshold 5 with 12 requests
and at a disabled threshold. -/
theorem rate_governor_policy_witness :
    (runPauses ((5 : ℕ) : Int) 0 12).length = 12 / 5 ∧
    rateLimitCheck (-3) 7 = (7, false) ∧
    (rateLimitCheck 5 4).1 = 4 + 1 := by
  refine ⟨rate_governor_policy.2.2.1 5 12 (by decide),
    rate_governor_policy.1 (-3) 7 (by decide),
    (rate_governor_policy.2.1 5 4 (by decide)).1⟩

/-!
## Rate-governor globals across the process lifetime (C9)

The package-level rate state (`rlCount`, `rlThreshold`, `rlSleep`,
`rlPaused`, part_001 lines 34-39) is mutated only by
`InitRateLimiter` (sets threshold and sleep) and `rateLimitCheck`
(increments the counter; sets and clears the paused flag within one
call). The only explicit global reset in the repository is at the
start of the cloud-functions sub-scan (`checkFunctions`, the
`hasFuncs = nil` statement) — and it clears the `hasFuncs` accumulator
list, not the rate state.
-/

/-- The rate governor's package-level variables. `rlPaused` holds its
value between calls (within a call it is toggled and restored). -/
structure RateGlobals where
  rlCount : Int
  rlThreshold : Int
  rlSleepSecs : Int
  rlPaused : Bool
  deriving DecidableEq

/-- Embeds `InitRateLimiter` (part_001 lines 42-45): sets threshold and sleep
duration only. -/
def InitRateLimiter (threshold sleepSecs : Int) (g : RateGlobals) :
    RateGlobals :=
  { g with rlThreshold := threshold, rlSleepSecs := sleepSecs }

/-- Effect of one `rateLimitCheck` call on the globals: no-op when the
threshold is not positive, else increment the counter (the paused flag
is set and cleared within the same call, ending where it started). -/
def rateLimitCheckG (g : RateGlobals) : RateGlobals :=
  if g.rlThreshold ≤ 0 then g else { g with rlCount := g.rlCount + 1 }

/-- The package-level mutable state the claim is about: the rate
governor's globals plus the `hasFuncs` accumulator of the GCP
cloud-functions check. -/
structure EnumGlobals where
  rate : RateGlobals
  hasFuncs : List String
  deriving DecidableEq

/-- The "Reset global list" step at the start of `checkFunctions`
(the `hasFuncs = nil` assignment before the region re-scan). -/
def checkFunctionsReset (g : EnumGlobals) : EnumGlobals :=
  { g with hasFuncs := [] }

/-- Every operation in the repository that touches this global state. -/
inductive GlobalOp where
  | initRL (threshold sleepSecs : Int)
  | addReq
  | cfReset
  | recordFunc (url : String)

/-- Apply one global-state operation. -/
def applyOp : GlobalOp → EnumGlobals → EnumGlobals
  | GlobalOp.initRL t s, g => { g with rate := InitRateLimiter t s g.rate }
  | GlobalOp.addReq, g => { g with rate := rateLimitCheckG g.rate }
  | GlobalOp.cfReset, g => checkFunctionsReset g
  | GlobalOp.recordFunc u, g => { g with hasFuncs := g.hasFuncs ++ [u] }

/-- Apply a whole process lifetime of global-state operations. -/
def applyOps (ops : List GlobalOp) (g : EnumGlobals) : EnumGlobals :=
  ops.foldl (fun s op => applyOp op s) g

/-- Counterexample to C9 as stated: the explicit reset at the start of
the cloud-functions sub-scan leaves the rate governor's state
untouched (counter still 7, flag unchanged); what it clears is the
`hasFuncs` list. So the rate state is not "explicitly reset at the
start of a themed sub-scan". -/
theorem rate_reset_counterexample :
    (checkFunctionsReset ⟨⟨7, 5, 240, false⟩, ["f.x"]⟩).rate.rlCount = 7 ∧
    (checkFunctionsReset ⟨⟨7, 5, 240, false⟩, ["f.x"]⟩).hasFuncs = [] ∧
    (7 : Int) ≠ 0 := by
  refine ⟨rfl, rfl, by decide⟩

theorem applyOp_rlCount_mono (op : GlobalOp) (g : EnumGlobals) :
    g.rate.rlCount ≤ (applyOp op g).rate.rlCount := by
  cases op with
  | initRL t s => simp [applyOp, InitRateLimiter]
  | addReq =>
    simp only [applyOp, rateLimitCheckG]
    split
    · exact le_refl _
    · simp
  | cfReset => simp [applyOp, checkFunctionsReset]
  | recordFunc u => simp [applyOp]

/-- C9 (amended): the rate governor's process-wide state is shared by
every batch and never reset — the cumulative counter never decreases
under any sequence of the operations that touch the globals;
`InitRateLimiter` leaves the counter and paused flag unchanged; and
the one explicit reset at the start of the cloud-functions sub-scan
(`checkFunctions`) clears the `hasFuncs` accumulator while leaving the
entire rate state unchanged. -/
theorem rate_state_never_reset :
    (∀ (ops : List GlobalOp) (g : EnumGlobals),
      g.rate.rlCount ≤ (applyOps ops g).rate.rlCount) ∧
    (∀ (t s : Int) (g : RateGlobals),
      (InitRateLimiter t s g).rlCount = g.rlCount ∧
      (InitRateLimiter t s g).rlPaused = g.rlPaused) ∧
    (∀ g : EnumGlobals,
      (checkFunctionsReset g).rate = g.rate ∧
      (checkFunctionsReset g).hasFuncs = []) := by
  refine ⟨?_, fun t s g => ⟨rfl, rfl⟩, fun g => ⟨rfl, rfl⟩⟩
  intro ops
  induction ops with
  | nil => intro g; simp [applyOps]
  | cons op rest ih =>
    intro g
    calc g.rate.rlCount ≤ (applyOp op g).rate.rlCount :=
          applyOp_rlCount_mono op g
      _ ≤ (applyOps rest (applyOp op g)).rate.rlCount := ih (applyOp op g)
      _ = (applyOps (op :: rest) g).rate.rlCount := by simp [applyOps]

/-!
## DNS worker-pool sizing (`FastDNSLookup`, part_001 lines 484-491)

`dnsConcurrency := threads * 10`, capped at 500, then capped at the
number of names that survived the validity filter; the spawning loop
`for w := 0; w < dnsConcurrency; w++` starts `max(0, dnsConcurrency)`
workers.
-/

/-- The concurrency computation of `FastDNSLookup` given the caller's
thread count and the filtered name count. -/
def dnsConcurrency (threads total : Int) : Int :=
  let d0 := threads * 10
  let d1 := if d0 > 500 then 500 else d0
  if d1 > total then total else d1

/-- Number of DNS workers the spawning loop actually starts. -/
def dnsWorkersSpawned (threads : Int) (names : List String) : Nat :=
  (dnsConcurrency threads ((filterValid names).length : Int)).toNat

/-- Counterexample to C6 as stated: with caller thread count 0 and one
valid name, the code spawns 0 workers, while the claimed formula
`min(500, max(threads*10, 1), len(names))` gives 1 — the code has no
clamp to a minimum of one worker. -/
theorem dns_worker_count_counterexample :
    (filterValid ["a"]).length = 1 ∧
    dnsWorkersSpawned 0 ["a"] = 0 ∧
    min 500 (min (max ((0 : Int) * 10) 1) 1) = 1 := by
  refine ⟨by decide, by decide, by decide⟩

/-- C6 (amended): for every DNS batch whose caller thread count is at
least 1 and whose filtered name list is non-empty, the number of DNS
workers spawned equals `min(500, callerThreads*10, number of valid
names)` — and is in particular at least 1. (For a non-positive caller
thread count the loop spawns no workers at all; the code has no
`max(..., 1)` clamp.) -/
theorem dns_worker_count (threads : Int) (names : List String)
    (ht : 1 ≤ threads) (hne : filterValid names ≠ []) :
    (dnsWorkersSpawned threads names : Int) =
      min 500 (min (threads * 10) ((filterValid names).length : Int)) ∧
    1 ≤ dnsWorkersSpawned threads names := by
  have hL : 0 < (filterValid names).length := List.length_pos.mpr hne
  have hL' : (1 : Int) ≤ ((filterValid names).length : Int) := by
    exact_mod_cast hL
  unfold dnsWorkersSpawned dnsConcurrency
  dsimp only
  constructor
  · split_ifs <;> omega
  · split_ifs <;> omega

/-- Witness for C6 (amended): 3 caller threads and two valid names
spawn `min(500, 30, 2) = 2` workers. -/
theorem dns_worker_count_witness :
    (dnsWorkersSpawned 3 ["a", "b"] : Int) =
      min 500 (min ((3 : Int) * 10) ((filterValid ["a", "b"]).length : Int)) ∧
    1 ≤ dnsWorkersSpawned 3 ["a", "b"] :=
  dns_worker_count 3 ["a", "b"] (by decide) (by decide)

/-!
## Resolver selection (`useCustomNS` part_001 lines 385-387,
`FastDNSLookup` lines 452-468)

A custom round-robin resolver (3-second per-attempt timeout) is built
only when a nameserver file is supplied or the `-ns` value differs
from both `""` and the flag's default `"1.1.1.1"`; otherwise the
ambient system resolver with the 5-second timeout is used.
-/

/-- Embeds `useCustomNS` (part_001 lines 385-387). -/
def useCustomNS (nameserver nameserverFile : String) : Bool :=
  nameserverFile != "" || (nameserver != "" && nameserver != "1.1.1.1")

/-- The `-ns` flag's default value (part_003 line 72). -/
def defaultNameserverFlag : String := "1.1.1.1"

/-- Which resolver `FastDNSLookup` uses. -/
inductive ResolverSel where
  | system
  | custom (nsList : List String)
  deriving DecidableEq

/-- The resolver-selection step of `FastDNSLookup` (lines 452-468):
returns the resolver choice and the per-lookup timeout in seconds.
`fileNS` stands for the nameservers read from the file when one is
supplied. -/
def selectResolver (nameserver nameserverFile : String)
    (fileNS : List String) : ResolverSel × Int :=
  if useCustomNS nameserver nameserverFile then
    (ResolverSel.custom (if nameserverFile != "" then fileNS
      else [nameserver]), 3)
  else
    (ResolverSel.system, 5)

/-- C10: supplying the nameserver `"1.1.1.1"` (the CLI flag's default)
or `""` with no nameserver file selects the ambient system resolver
with the 5-second timeout; a custom resolver with the 3-second timeout
is built exactly when a nameserver file is supplied or the nameserver
differs from both `""` and `"1.1.1.1"`, as decided by `useCustomNS`. -/
theorem resolver_selection :
    (∀ fileNS, selectResolver "1.1.1.1" "" fileNS = (ResolverSel.system, 5)) ∧
    (∀ fileNS, selectResolver "" "" fileNS = (ResolverSel.system, 5)) ∧
    useCustomNS defaultNameserverFlag "" = false ∧
    (∀ ns nsf, useCustomNS ns nsf = true ↔
      (nsf ≠ "" ∨ (ns ≠ "" ∧ ns ≠ "1.1.1.1"))) ∧
    (∀ ns nsf fileNS, useCustomNS ns nsf = false →
      selectResolver ns nsf fileNS = (ResolverSel.system, 5)) ∧
    (∀ ns nsf fileNS, useCustomNS ns nsf = true →
      (selectResolver ns nsf fileNS).2 = 3 ∧
      ∃ l, (selectResolver ns nsf fileNS).1 = ResolverSel.custom l) := by
  refine ⟨?_, ?_, by decide, ?_, ?_, ?_⟩
  · intro fileNS
    simp [selectResolver, useCustomNS]
  · intro fileNS
    simp [selectResolver, useCustomNS]
  · intro ns nsf
    simp [useCustomNS]
  · intro ns nsf fileNS h
    simp [selectResolver, h]
  · intro ns nsf fileNS h
    refine ⟨by simp [selectResolver, h], ?_⟩
    by_cases hf : nsf != ""
    · exact ⟨fileNS, by simp [selectResolver, h, hf]⟩
    · exact ⟨[ns], by simp only [selectResolver, h, if_true, hf,
        Bool.false_eq_true, if_false]⟩

/-- Witness for C10: the default nameserver uses the system resolver at
5 seconds; an explicit `8.8.8.8` builds a custom resolver at 3 seconds. -/
theorem resolver_selection_witness :
    selectResolver "1.1.1.1" "" ["9.9.9.9"] = (ResolverSel.system, 5) ∧
    (selectResolver "8.8.8.8" "" []).2 = 3 := by
  refine ⟨resolver_selection.2.2.2.2.1 "1.1.1.1" "" ["9.9.9.9"] (by decide),
    (resolver_selection.2.2.2.2.2 "8.8.8.8" "" [] (by decide)).1⟩

/-!
## HTTP batch abort semantics (`GetURLBatch`, part_001 lines 277-352)

The batch's concurrent execution is modelled as a transition system.
A worker that pulls a job first reads the shared `aborted` flag: if it
is set the job is drained (counted done, never dispatched), otherwise
the worker dispatches the request (the flag read and the dispatch
decision form one step; the network call itself is then "in flight"
and completes in a later step, delivering the result to the
classifier's consuming loop). The consuming loop sets the flag when
the classifier returns `true` for a delivered result; nothing ever
clears it within a batch.
-/

/-- A snapshot of one `GetURLBatch` run: the abort flag, jobs not yet
picked up, requests dispatched but not yet completed, the log of every
request ever dispatched, results delivered to the classifier, and
jobs drained without dispatch. -/
structure BatchState where
  flag : Bool
  queued : List String
  inFlight : List String
  dispatched : List String
  delivered : List String
  drained : List String

/-- One step of a `GetURLBatch` execution. -/
inductive BatchStep (classifier : String → Bool) :
    BatchState → BatchState → Prop
  | dispatch (s : BatchState) (j : String) (rest : List String)
      (hflag : s.flag = false) (hq : s.queued = j :: rest) :
      BatchStep classifier s
        { s with queued := rest, inFlight := s.inFlight ++ [j],
                 dispatched := s.dispatched ++ [j] }
  | drain (s : BatchState) (j : String) (rest : List String)
      (hflag : s.flag = true) (hq : s.queued = j :: rest) :
      BatchStep classifier s
        { s with queued := rest, drained := s.drained ++ [j] }
  | complete (s : BatchState) (j : String) (hj : j ∈ s.inFlight) :
      BatchStep classifier s
        { s with inFlight := s.inFlight.erase j,
                 delivered := s.delivered ++ [j] }
  | abort (s : BatchState) (j : String) (hj : j ∈ s.delivered)
      (hc : classifier j = true) :
      BatchStep classifier s { s with flag := true }

/-- Reachability along batch steps. -/
def BatchReach (classifier : String → Bool) :
    BatchState → BatchState → Prop :=
  Relation.ReflTransGen (BatchStep classifier)

theorem step_after_abort {c : String → Bool} {s s' : BatchState}
    (h : BatchStep c s s') (hf : s.flag = true) :
    s'.flag = true ∧ s'.dispatched = s.dispatched ∧
    (∀ x ∈ s'.inFlight, x ∈ s.inFlight) ∧
    ∃ extra, s'.delivered = s.delivered ++ extra ∧
      ∀ x ∈ extra, x ∈ s.inFlight := by
  cases h with
  | dispatch j rest hflag hq =>
    rw [hf] at hflag
    exact Bool.noConfusion hflag
  | drain j rest hflag hq =>
    exact ⟨hf, rfl, fun x hx => hx, [], by simp, by simp⟩
  | complete j hj =>
    refine ⟨hf, rfl, fun x hx => List.mem_of_mem_erase hx, [j], rfl, ?_⟩
    intro x hx
    rw [List.mem_singleton] at hx
    exact hx ▸ hj
  | abort j hj hc =>
    exact ⟨rfl, rfl, fun x hx => hx, [], by simp, by simp⟩

theorem reach_after_abort {c : String → Bool} {s s' : BatchState}
    (hreach : BatchReach c s s') (hf : s.flag = true) :
    s'.flag = true ∧ s'.dispatched = s.dispatched ∧
    (∀ x ∈ s'.inFlight, x ∈ s.inFlight) ∧
    ∃ extra, s'.delivered = s.delivered ++ extra ∧
      ∀ x ∈ extra, x ∈ s.inFlight := by
  induction hreach with
  | refl => exact ⟨hf, rfl, fun x hx => hx, [], by simp, by simp⟩
  | tail hsteps hstep ih =>
    obtain ⟨ihf, ihd, ihi, extra, ihdel, ihext⟩ := ih
    obtain ⟨f2, d2, i2, extra2, del2, ext2⟩ := step_after_abort hstep ihf
    refine ⟨f2, by rw [d2, ihd], fun x hx => ihi x (i2 x hx),
      extra ++ extra2, ?_, ?_⟩
    · rw [del2, ihdel, List.append_assoc]
    · intro x hx
      rcases List.mem_append.mp hx with hx | hx
      · exact ihext x hx
      · exact ihi x (ext2 x hx)

/-- C3: once the shared abort flag is set in a `GetURLBatch` run, it
stays set, the set of dispatched requests never grows again (every
worker checks the flag before dispatching, so queued entries are
drained without dispatch), and everything delivered to the classifier
from then on was already in flight when the flag was set; moreover the
flag only ever becomes set because the classifier returned `true` for
some delivered result. -/
theorem abort_stops_dispatch :
    (∀ (c : String → Bool) (s s' : BatchState), BatchReach c s s' →
      s.flag = true →
      s'.flag = true ∧ s'.dispatched = s.dispatched ∧
      (∀ x ∈ s'.inFlight, x ∈ s.inFlight) ∧
      ∃ extra, s'.delivered = s.delivered ++ extra ∧
        ∀ x ∈ extra, x ∈ s.inFlight) ∧
    (∀ (c : String → Bool) (s s' : BatchState), BatchStep c s s' →
      s.flag = false → s'.flag = true →
      ∃ j, j ∈ s.delivered ∧ c j = true) := by
  refine ⟨fun c s s' hreach hf => reach_after_abort hreach hf, ?_⟩
  intro c s s' hstep hf hf'
  cases hstep with
  | dispatch j rest hflag hq =>
    exact absurd hf' (by simp [hf])
  | drain j rest hflag hq =>
    rw [hflag] at hf
    exact Bool.noConfusion hf
  | complete j hj =>
    exact absurd hf' (by simp [hf])
  | abort j hj hc => exact ⟨j, hj, hc⟩

/-- A classifier that requests breakout on an "open" result. -/
def exClassifier : String → Bool := fun r => r == "open"

/-- A mid-batch state: abort flag already set, one job still queued,
one request in flight. -/
def exAborted : BatchState :=
  { flag := true, queued := ["q.x"], inFlight := ["p.x"],
    dispatched := ["p.x"], delivered := ["open"], drained := [] }

/-- State `exAborted` after the queued job is drained. -/
def exDrained : BatchState :=
  { exAborted with queued := [], drained := exAborted.drained ++ ["q.x"] }

/-- State `exDrained` after the in-flight request completes. -/
def exDone : BatchState :=
  { exDrained with
    inFlight := exDrained.inFlight.erase "p.x",
    delivered := exDrained.delivered ++ ["p.x"] }

/-- Witness for C3: in a concrete post-abort execution, the drained job
is never dispatched and only the in-flight request is delivered. -/
theorem abort_stops_dispatch_witness :
    exDone.flag = true ∧ exDone.dispatched = exAborted.dispatched := by
  have h1 : BatchStep exClassifier exAborted exDrained := by
    exact BatchStep.drain exAborted "q.x" [] rfl rfl
  have h2 : BatchStep exClassifier exDrained exDone := by
    exact BatchStep.complete exDrained "p.x" (by decide)
  have hreach : BatchReach exClassifier exAborted exDone :=
    Relation.ReflTransGen.tail (Relation.ReflTransGen.single h1) h2
  have h := (abort_stops_dispatch.1 exClassifier exAborted exDone hreach rfl)
  exact ⟨h.1, h.2.1⟩

/-!
## Validity filtering of both batch engines (C7)

`GetURLBatch` (lines 234-244) and `FastDNSLookup` (lines 472-482)
filter their input through `IsValidDomain` before anything is fed to
a worker, and the `total` reported by the progress ticker is the
length of the filtered list.
-/

/-- The state of a `GetURLBatch` run before any step: the job queue
holds exactly the entries that passed the validity filter. -/
def initHTTPBatch (urlList : List String) : BatchState :=
  { flag := false, queued := filterValid urlList, inFlight := [],
    dispatched := [], delivered := [], drained := [] }

/-- The `total` that `GetURLBatch` reports for progress
(line 241: `total = len(valid)`). -/
def httpReportedTotal (urlList : List String) : Nat :=
  (filterValid urlList).length

/-- The `total` that `FastDNSLookup` reports for progress
(line 479: `total = len(filtered)`). -/
def dnsReportedTotal (names : List String) : Nat :=
  (filterValid names).length

theorem step_preserves_from {c : String → Bool} {s s' : BatchState}
    {X : List String} (h : BatchStep c s s')
    (hq : ∀ x ∈ s.queued, x ∈ X) (hd : ∀ x ∈ s.dispatched, x ∈ X) :
    (∀ x ∈ s'.queued, x ∈ X) ∧ (∀ x ∈ s'.dispatched, x ∈ X) := by
  cases h with
  | dispatch j rest hflag hq' =>
    refine ⟨fun x hx => hq x (by rw [hq']; exact List.mem_cons_of_mem j hx), ?_⟩
    intro x hx
    rcases List.mem_append.mp hx with hx | hx
    · exact hd x hx
    · rw [List.mem_singleton] at hx
      exact hq x (by rw [hq', hx]; exact List.mem_cons_self j rest)
  | drain j rest hflag hq' =>
    exact ⟨fun x hx => hq x (by rw [hq']; exact List.mem_cons_of_mem j hx), hd⟩
  | complete j hj => exact ⟨hq, hd⟩
  | abort j hj hc => exact ⟨hq, hd⟩

theorem reach_dispatched_sub {c : String → Bool} {s s' : BatchState}
    {X : List String} (hreach : BatchReach c s s')
    (hq : ∀ x ∈ s.queued, x ∈ X) (hd : ∀ x ∈ s.dispatched, x ∈ X) :
    (∀ x ∈ s'.queued, x ∈ X) ∧ (∀ x ∈ s'.dispatched, x ∈ X) := by
  induction hreach with
  | refl => exact ⟨hq, hd⟩
  | tail hsteps hstep ih => exact step_preserves_from hstep ih.1 ih.2

theorem filter_partition_length (p : String → Bool) (l : List String) :
    (l.filter p).length + (l.filter fun x => !(p x)).length = l.length := by
  induction l with
  | nil => rfl
  | cons x xs ih =>
    cases h : p x <;> simp [List.filter_cons, h, ← ih] <;> omega

/-- C7: an entry failing the validator is never dispatched in any
`GetURLBatch` execution (it is not even queued), is absent from the
DNS batch's filtered work list, and both engines' reported `total`
counts exactly the valid entries — the invalid ones are silently
excluded, not errored individually. -/
theorem invalid_never_dispatched :
    (∀ (c : String → Bool) (urlList : List String) (s : BatchState),
      BatchReach c (initHTTPBatch urlList) s →
      ∀ u, IsValidDomain u = false → u ∉ s.dispatched ∧ u ∉ s.queued) ∧
    (∀ (names : List String) (u : String), IsValidDomain u = false →
      u ∉ filterValid names) ∧
    (∀ urlList : List String,
      httpReportedTotal urlList +
        (urlList.filter fun n => !(IsValidDomain n)).length =
        urlList.length) ∧
    (∀ names : List String,
      dnsReportedTotal names +
        (names.filter fun n => !(IsValidDomain n)).length =
        names.length) := by
  have hnotmem : ∀ (l : List String) (u : String), IsValidDomain u = false →
      u ∉ filterValid l := by
    intro l u hu hmem
    have := List.of_mem_filter hmem
    rw [hu] at this
    exact Bool.noConfusion this
  refine ⟨?_, hnotmem, ?_, ?_⟩
  · intro c urlList s hreach u hu
    have hinit : ∀ x ∈ (initHTTPBatch urlList).queued, x ∈ filterValid urlList :=
      fun x hx => hx
    have hinitd : ∀ x ∈ (initHTTPBatch urlList).dispatched,
        x ∈ filterValid urlList := by
      intro x hx
      exact absurd hx (List.not_mem_nil x)
    obtain ⟨hq, hd⟩ := reach_dispatched_sub hreach hinit hinitd
    exact ⟨fun hmem => hnotmem urlList u hu (hd u hmem),
      fun hmem => hnotmem urlList u hu (hq u hmem)⟩
  · intro urlList
    exact filter_partition_length (fun n => IsValidDomain n) urlList
  · intro names
    exact filter_partition_length (fun n => IsValidDomain n) names

/-- Witness for C7: the invalid name `"a..b"` is neither dispatched nor
counted in a concrete batch over `["ok", "a..b"]`. -/
theorem invalid_never_dispatched_witness :
    ("a..b" ∉ (initHTTPBatch ["ok", "a..b"]).dispatched ∧
      "a..b" ∉ (initHTTPBatch ["ok", "a..b"]).queued) ∧
    "a..b" ∉ filterValid ["ok", "a..b"] ∧
    httpReportedTotal ["ok", "a..b"] +
      ((["ok", "a..b"] : List String).filter fun n => !(IsValidDomain n)).length =
      (["ok", "a..b"] : List String).length := by
  refine ⟨invalid_never_dispatched.1 exClassifier ["ok", "a..b"] _
      Relation.ReflTransGen.refl "a..b" (by decide),
    invalid_never_dispatched.2.1 ["ok", "a..b"] "a..b" (by decide),
    invalid_never_dispatched.2.2.1 ["ok", "a..b"]⟩

end CloudEnum
